import Mathlib

/-!
Verification of the state/transition engine of pagerduty-oncall-notifier.

The Go sources are embedded shallowly:
  * instants and durations are `Int` nanoseconds (Go `time.Time` as UTC
    nanoseconds since the epoch, `time.Duration` as `int64` nanoseconds);
  * the hidden `time.Now().UTC()` calls become an explicit `now` argument;
  * the JSON file written by `Manager.Save` / read by `Manager.Load`
    becomes a small JSON value tree plus a store-content type covering the
    missing / unreadable / corrupt / well-formed cases;
  * one iteration of `runPollingLoop` (cmd/notifier/main.go) becomes the
    pure function `pollCycle` over explicit per-tick inputs.
-/

/-- State mirrors the Go struct `state.State`: the persisted record with
`WasOnCall` and the optional `LastAdvanceNotificationSent` timestamp. -/
structure State where
  WasOnCall : Bool
  LastAdvanceNotificationSent : Option Int
deriving DecidableEq, Repr

/-- hour is Go `time.Hour` in nanoseconds. -/
def hour : Int := 3600 * 1000000000

/-- HasTransitionToOnCall embeds `Manager.HasTransitionToOnCall`:
`!previousState.WasOnCall && currentlyOnCall`. -/
def HasTransitionToOnCall (previousState : State) (currentlyOnCall : Bool) : Bool :=
  !previousState.WasOnCall && currentlyOnCall

/-- ShouldSendAdvanceNotification embeds `Manager.ShouldSendAdvanceNotification`,
with the hidden `time.Now().UTC()` made the explicit argument `now`. -/
def ShouldSendAdvanceNotification (now : Int) (state : State)
    (shiftStartTime : Int) (advanceTime : Int) : Bool :=
  if advanceTime ≤ 0 then
    false
  else
    let timeUntilShift := shiftStartTime - now
    if timeUntilShift ≤ 0 ∨ timeUntilShift > advanceTime then
      false
    else
      match state.LastAdvanceNotificationSent with
      | some lastSent =>
        if now - lastSent < 24 * hour then false else true
      | none => true

/-- RecordAdvanceNotificationSent embeds `Manager.RecordAdvanceNotificationSent`:
it sets `state.LastAdvanceNotificationSent` to `now`. The Go method mutates the
state in place; here the updated state is returned. -/
def RecordAdvanceNotificationSent (now : Int) (state : State) : State :=
  { state with LastAdvanceNotificationSent := some now }

/-- Modelled from the spec: `HasTransitionToOffCall` is exercised by the
repository's test `TestTransitionDetectors` (internal/state/manager_test.go)
but its body is not among the provided source files. The spec states it is
true iff `previous.wasOnCall == true && currentlyOnCall == false`. -/
def HasTransitionToOffCall (previousState : State) (currentlyOnCall : Bool) : Bool :=
  previousState.WasOnCall && !currentlyOnCall

/-- JsonValue is the value tree produced by Go's `encoding/json` for the
state record. A `time` leaf stands for the RFC3339Nano string Go emits for a
UTC `time.Time`; that encoding round-trips UTC instants exactly, so the leaf
keeps the instant itself. A `str` leaf is any other string. -/
inductive JsonValue where
  | null : JsonValue
  | bool : Bool → JsonValue
  | str : String → JsonValue
  | time : Int → JsonValue
  | obj : List (String × JsonValue) → JsonValue

/-- setWasOnCall models `json.Unmarshal` assigning a member into the Go bool
field `WasOnCall`: `null` is a no-op, a non-bool value is a type error. -/
def setWasOnCall (s : State) : JsonValue → Option State
  | JsonValue.bool b => some { s with WasOnCall := b }
  | JsonValue.null => some s
  | _ => none

/-- setLastSent models `json.Unmarshal` assigning a member into the Go
pointer field `LastAdvanceNotificationSent`: `null` sets the pointer to nil,
a time string parses, anything else is a type error. -/
def setLastSent (s : State) : JsonValue → Option State
  | JsonValue.time t => some { s with LastAdvanceNotificationSent := some t }
  | JsonValue.null => some { s with LastAdvanceNotificationSent := none }
  | _ => none

/-- setField models `json.Unmarshal` assigning one object member into the Go
`State` struct; unknown keys are ignored. -/
def setField (s : State) (key : String) (v : JsonValue) : Option State :=
  if key = "was_on_call" then setWasOnCall s v
  else if key = "last_advance_notification_sent" then setLastSent s v
  else some s

/-- unmarshalFields folds the members of a JSON object into a `State`,
left to right (as Go's decoder does, so a later duplicate key wins). -/
def unmarshalFields (s : State) : List (String × JsonValue) → Option State
  | [] => some s
  | (k, v) :: rest =>
    match setField s k v with
    | some s2 => unmarshalFields s2 rest
    | none => none

/-- unmarshalState models `json.Unmarshal(data, &state)`: an object is folded
member by member starting from the zero value, a top-level `null` is a no-op
leaving the zero value, and any other top-level value is a type error. -/
def unmarshalState : JsonValue → Option State
  | JsonValue.obj fields => unmarshalFields ⟨false, none⟩ fields
  | JsonValue.null => some ⟨false, none⟩
  | _ => none

/-- marshalState models `json.MarshalIndent(state, ...)`: `was_on_call` is
always emitted; `last_advance_notification_sent` carries `omitempty` and is
omitted (not null-encoded) when the pointer is nil. -/
def marshalState (s : State) : JsonValue :=
  JsonValue.obj
    (("was_on_call", JsonValue.bool s.WasOnCall) ::
      (match s.LastAdvanceNotificationSent with
       | none => []
       | some t => [("last_advance_notification_sent", JsonValue.time t)]))

/-- StoreContent is what `Manager.Load` can find at the state file path:
no file, a file whose bytes cannot be read, a file whose bytes are not valid
JSON, or a file whose bytes parse to a JSON value. -/
inductive StoreContent where
  | missing : StoreContent
  | unreadable : StoreContent
  | notJson : StoreContent
  | record : JsonValue → StoreContent

/-- Load embeds `Manager.Load`: the default state when the file does not
exist, a read error when the bytes cannot be read, and an unmarshal error
when they are not valid JSON or do not decode into the struct. -/
def Load : StoreContent → Except String State
  | StoreContent.missing => Except.ok ⟨false, none⟩
  | StoreContent.unreadable => Except.error "failed to read state file"
  | StoreContent.notJson => Except.error "failed to unmarshal state"
  | StoreContent.record j =>
    match unmarshalState j with
    | some s => Except.ok s
    | none => Except.error "failed to unmarshal state"

/-- Save embeds `Manager.Save`: it writes the JSON encoding of the state
(directory creation and write failures are I/O effects outside the
encoding and are not modelled here). -/
def Save (s : State) : StoreContent :=
  StoreContent.record (marshalState s)

/-- NotificationEvent mirrors the event kinds of `internal/notifier`. -/
inductive NotificationEvent where
  | EventShiftStarted : NotificationEvent
  | EventUpcomingShift : NotificationEvent
  | EventShiftEnded : NotificationEvent
deriving DecidableEq, Repr

/-- PollInputs gathers the per-tick external inputs of one iteration of
`runPollingLoop`: the result of `pdClient.IsOnCall`, the result of
`pdClient.GetUpcomingShift` (its start time when a shift exists), whether
each `NotifyWithEvent` delivery succeeds, and the tick's `time.Now().UTC()`. -/
structure PollInputs where
  isOnCall : Except Unit Bool
  upcomingShift : Except Unit (Option Int)
  advanceDeliveryOk : Bool
  startedDeliveryOk : Bool
  now : Int

/-- advanceStep embeds the advance-notification block of `runPollingLoop`
(the body guarded by `cfg.AdvanceNotificationTime > 0`): a failed or empty
upcoming-shift query changes nothing; otherwise, when
`ShouldSendAdvanceNotification` holds, the `UpcomingShift` event fires and
`RecordAdvanceNotificationSent` runs only if delivery succeeded. -/
def advanceStep (adv : Int) (now : Int) (upcoming : Except Unit (Option Int))
    (deliveryOk : Bool) (s : State) : State × List NotificationEvent :=
  if adv > 0 then
    match upcoming with
    | Except.error _ => (s, [])
    | Except.ok none => (s, [])
    | Except.ok (some shiftStart) =>
      if ShouldSendAdvanceNotification now s shiftStart adv then
        if deliveryOk then
          (RecordAdvanceNotificationSent now s, [NotificationEvent.EventUpcomingShift])
        else (s, [NotificationEvent.EventUpcomingShift])
      else (s, [])
  else (s, [])

/-- pollCycle embeds one tick of `runPollingLoop`: a failed `IsOnCall` query
skips the cycle entirely (`continue`); otherwise the advance block runs,
then `HasTransitionToOnCall` decides whether `ShiftStarted` fires (its
delivery result never blocks the state update), and finally
`WasOnCall := isOnCall` is set before the state is saved. -/
def pollCycle (adv : Int) (inp : PollInputs) (s : State) :
    State × List NotificationEvent :=
  match inp.isOnCall with
  | Except.error _ => (s, [])
  | Except.ok isOnCall =>
    let p := advanceStep adv inp.now inp.upcomingShift inp.advanceDeliveryOk s
    let started :=
      if HasTransitionToOnCall p.1 isOnCall then
        [NotificationEvent.EventShiftStarted]
      else []
    ({ p.1 with WasOnCall := isOnCall }, p.2 ++ started)

/-- runCycles iterates `pollCycle` over a list of per-tick inputs,
threading the in-memory state as the loop does. -/
def runCycles (adv : Int) (s : State) : List PollInputs → State
  | [] => s
  | inp :: rest => runCycles adv (pollCycle adv inp s).1 rest

/-- nowsFrom t inps states that the ticks' clock readings are at least `t`
and non-decreasing along the list (real time moves forward). -/
def nowsFrom (t : Int) : List PollInputs → Prop
  | [] => True
  | inp :: rest => t ≤ inp.now ∧ nowsFrom inp.now rest

/-- advanceStep never changes `WasOnCall`, emits no `ShiftStarted` event,
and leaves the timestamp unchanged or sets it to `now`. -/
theorem advanceStep_frame (adv now : Int) (up : Except Unit (Option Int))
    (dOk : Bool) (s : State) :
    (advanceStep adv now up dOk s).1.WasOnCall = s.WasOnCall ∧
    (advanceStep adv now up dOk s).2.count NotificationEvent.EventShiftStarted = 0 ∧
    ((advanceStep adv now up dOk s).1.LastAdvanceNotificationSent
        = s.LastAdvanceNotificationSent ∨
      (advanceStep adv now up dOk s).1.LastAdvanceNotificationSent = some now) := by
  unfold advanceStep
  split <;> [skip; simp]
  rcases up with _ | _ | _
  · simp
  · simp
  · simp only [RecordAdvanceNotificationSent]
    split_ifs <;> simp

/-- Claim C1: `ShouldSendAdvanceNotification(state, shiftStartTime, advanceWindow)`
returns true iff `advanceWindow > 0`, `0 < shiftStartTime - now ≤ advanceWindow`,
and the dedup timestamp is absent or at least 24 hours old; in particular it is
false whenever `advanceWindow ≤ 0`, regardless of all other inputs. -/
theorem shouldSendAdvanceNotification_spec (now : Int) (s : State)
    (shiftStart adv : Int) :
    (ShouldSendAdvanceNotification now s shiftStart adv = true ↔
      0 < adv ∧ 0 < shiftStart - now ∧ shiftStart - now ≤ adv ∧
        (s.LastAdvanceNotificationSent = none ∨
          ∃ t, s.LastAdvanceNotificationSent = some t ∧ 24 * hour ≤ now - t)) ∧
    (adv ≤ 0 → ShouldSendAdvanceNotification now s shiftStart adv = false) := by
  constructor
  · cases h : s.LastAdvanceNotificationSent with
    | none =>
      simp only [ShouldSendAdvanceNotification, h]
      split_ifs with h1 h2 <;> simp <;> omega
    | some t =>
      simp only [ShouldSendAdvanceNotification, h]
      split_ifs with h1 h2 h3 <;> simp <;> omega
  · intro h
    simp [ShouldSendAdvanceNotification, h]

/-- Claim C1 witness: with `advanceWindow = -1` the result is false. -/
theorem shouldSendAdvanceNotification_spec_witness :
    ShouldSendAdvanceNotification 0 ⟨false, none⟩ 100 (-1) = false :=
  (shouldSendAdvanceNotification_spec 0 ⟨false, none⟩ 100 (-1)).2 (by decide)

/-- Claim C2: `HasTransitionToOnCall(previous, currentlyOnCall)` is true iff
`previous.WasOnCall` is false and `currentlyOnCall` is true; in particular for
`WasOnCall = false` the call with `true` returns true, and for
`WasOnCall = true` it returns false. -/
theorem hasTransitionToOnCall_spec (prev : State) (cur : Bool) :
    (HasTransitionToOnCall prev cur = true ↔
      prev.WasOnCall = false ∧ cur = true) ∧
    (prev.WasOnCall = false → HasTransitionToOnCall prev true = true) ∧
    (prev.WasOnCall = true → HasTransitionToOnCall prev true = false) := by
  refine ⟨?_, ?_, ?_⟩ <;>
    cases h : prev.WasOnCall <;> simp [HasTransitionToOnCall, h]

/-- Claim C2 witness: from `WasOnCall = false`, observing on-call is a
transition. -/
theorem hasTransitionToOnCall_spec_witness :
    HasTransitionToOnCall ⟨false, none⟩ true = true :=
  (hasTransitionToOnCall_spec ⟨false, none⟩ true).2.1 rfl

/-- Claim C9: after `RecordAdvanceNotificationSent` at time `t`,
`ShouldSendAdvanceNotification` is false at every instant less than 24 hours
after `t`, for every shift start time and every advance window. -/
theorem recordAdvanceNotificationSent_suppresses (s : State)
    (t now2 shiftStart adv : Int) (h : now2 - t < 24 * hour) :
    ShouldSendAdvanceNotification now2 (RecordAdvanceNotificationSent t s)
      shiftStart adv = false := by
  simp only [ShouldSendAdvanceNotification, RecordAdvanceNotificationSent]
  split_ifs <;> simp_all

/-- Claim C9 witness: a notification recorded at time 0 suppresses a further
one at time `hour`, even inside a fresh valid window. -/
theorem recordAdvanceNotificationSent_suppresses_witness :
    ShouldSendAdvanceNotification hour
      (RecordAdvanceNotificationSent 0 ⟨false, none⟩) (2 * hour) (2 * hour)
      = false :=
  recordAdvanceNotificationSent_suppresses ⟨false, none⟩ 0 hour (2 * hour)
    (2 * hour) (by decide)

/-- Claim C10: `RecordAdvanceNotificationSent` modifies only the
`LastAdvanceNotificationSent` field: `WasOnCall` is unchanged, and the
timestamp field becomes the recorded instant. -/
theorem recordAdvanceNotificationSent_frame (now : Int) (s : State) :
    (RecordAdvanceNotificationSent now s).WasOnCall = s.WasOnCall ∧
    (RecordAdvanceNotificationSent now s).LastAdvanceNotificationSent
      = some now :=
  ⟨rfl, rfl⟩

/-- Claim C5: for every persisted state, `Save` followed by `Load` returns
the same state, and when the advance timestamp is absent the encoding omits
the optional field rather than null-encoding it. -/
theorem save_load_round_trip (s : State) :
    Load (Save s) = Except.ok s ∧
    (s.LastAdvanceNotificationSent = none →
      marshalState s = JsonValue.obj [("was_on_call", JsonValue.bool s.WasOnCall)]) := by
  obtain ⟨b, last⟩ := s
  cases last <;>
    simp [Load, Save, marshalState, unmarshalState, unmarshalFields, setField,
      setWasOnCall, setLastSent]

/-- Claim C5 witness: round trip at a concrete state with the timestamp
absent. -/
theorem save_load_round_trip_witness :
    marshalState ⟨true, none⟩ = JsonValue.obj [("was_on_call", JsonValue.bool true)] :=
  (save_load_round_trip ⟨true, none⟩).2 rfl

/-- Claim C6: `Load` returns the default state without error when no record
exists, and returns an error (never a silently defaulted state) when a
record exists but cannot be read or parsed. -/
theorem load_default_or_error :
    Load StoreContent.missing = Except.ok ⟨false, none⟩ ∧
    Load StoreContent.unreadable = Except.error "failed to read state file" ∧
    Load StoreContent.notJson = Except.error "failed to unmarshal state" ∧
    ∀ j, unmarshalState j = none →
      Load (StoreContent.record j) = Except.error "failed to unmarshal state" := by
  refine ⟨rfl, rfl, rfl, ?_⟩
  intro j h
  simp [Load, h]

/-- Claim C6 witness: a record whose JSON is a bare string fails to decode
and `Load` surfaces the error. -/
theorem load_default_or_error_witness :
    Load (StoreContent.record (JsonValue.str "oops"))
      = Except.error "failed to unmarshal state" :=
  load_default_or_error.2.2.2 (JsonValue.str "oops") rfl

/-- A positive advance window is necessary for
`ShouldSendAdvanceNotification` to hold. -/
theorem shouldSend_advance_pos (now : Int) (s : State) (shiftStart adv : Int)
    (h : ShouldSendAdvanceNotification now s shiftStart adv = true) : 0 < adv := by
  by_contra hle
  simp [ShouldSendAdvanceNotification, show adv ≤ 0 by omega] at h

/-- pollCycle with a successful on-call query sets `WasOnCall` to the
fetched boolean. -/
theorem pollCycle_wasOnCall (adv : Int) (inp : PollInputs) (s : State)
    (b : Bool) (h : inp.isOnCall = Except.ok b) :
    (pollCycle adv inp s).1.WasOnCall = b := by
  simp [pollCycle, h]

/-- pollCycle with a successful on-call query of `true` fires `ShiftStarted`
exactly when the previous state was off-call. -/
theorem pollCycle_count_started (adv : Int) (inp : PollInputs) (s : State)
    (h : inp.isOnCall = Except.ok true) :
    (pollCycle adv inp s).2.count NotificationEvent.EventShiftStarted
      = if s.WasOnCall then 0 else 1 := by
  obtain ⟨hwas, hcount, _⟩ :=
    advanceStep_frame adv inp.now inp.upcomingShift inp.advanceDeliveryOk s
  simp only [pollCycle, h, List.count_append, hcount, HasTransitionToOnCall, hwas]
  cases hw : s.WasOnCall <;> simp [hw]

/-- pollCycle leaves the dedup timestamp unchanged or sets it to the tick's
clock reading. -/
theorem pollCycle_last_cases (adv : Int) (inp : PollInputs) (s : State) :
    (pollCycle adv inp s).1.LastAdvanceNotificationSent
        = s.LastAdvanceNotificationSent ∨
      (pollCycle adv inp s).1.LastAdvanceNotificationSent = some inp.now := by
  obtain ⟨_, _, hlast⟩ :=
    advanceStep_frame adv inp.now inp.upcomingShift inp.advanceDeliveryOk s
  cases h : inp.isOnCall with
  | error e => simp [pollCycle, h]
  | ok b => simpa [pollCycle, h] using hlast

/-- nowsFrom is antitone in its lower bound. -/
theorem nowsFrom_mono (t t' : Int) (l : List PollInputs)
    (h : t ≤ t') (hl : nowsFrom t' l) : nowsFrom t l := by
  cases l with
  | nil => trivial
  | cons inp rest => exact ⟨le_trans h hl.1, hl.2⟩

/-- Claim C3: from the default persisted state, a poll cycle observing
`currentlyOnCall = true` fires exactly one `ShiftStarted` event and ends
with `WasOnCall = true` (the state that is then saved); a subsequent cycle
again observing `true` fires no further `ShiftStarted` event. -/
theorem pollCycle_shiftStarted_once (adv : Int) (inp1 inp2 : PollInputs)
    (h1 : inp1.isOnCall = Except.ok true)
    (h2 : inp2.isOnCall = Except.ok true) :
    (pollCycle adv inp1 ⟨false, none⟩).2.count
        NotificationEvent.EventShiftStarted = 1 ∧
    (pollCycle adv inp1 ⟨false, none⟩).1.WasOnCall = true ∧
    (pollCycle adv inp2 (pollCycle adv inp1 ⟨false, none⟩).1).2.count
        NotificationEvent.EventShiftStarted = 0 := by
  have hwas := pollCycle_wasOnCall adv inp1 ⟨false, none⟩ true h1
  refine ⟨?_, hwas, ?_⟩
  · rw [pollCycle_count_started adv inp1 ⟨false, none⟩ h1]
    rfl
  · rw [pollCycle_count_started adv inp2 _ h2, hwas]
    rfl

/-- Claim C3 witness: two concrete consecutive cycles that both observe
on-call, with advance notifications disabled. -/
theorem pollCycle_shiftStarted_once_witness :
    (pollCycle 0 ⟨Except.ok true, Except.ok none, true, true, 0⟩
        ⟨false, none⟩).2.count NotificationEvent.EventShiftStarted = 1 ∧
    (pollCycle 0 ⟨Except.ok true, Except.ok none, true, true, 0⟩
        ⟨false, none⟩).1.WasOnCall = true ∧
    (pollCycle 0 ⟨Except.ok true, Except.ok none, true, true, 1⟩
        (pollCycle 0 ⟨Except.ok true, Except.ok none, true, true, 0⟩
          ⟨false, none⟩).1).2.count NotificationEvent.EventShiftStarted = 0 :=
  pollCycle_shiftStarted_once 0
    ⟨Except.ok true, Except.ok none, true, true, 0⟩
    ⟨Except.ok true, Except.ok none, true, true, 1⟩ rfl rfl

/-- Claim C4: in a poll cycle where `ShouldSendAdvanceNotification` is true,
the advance block fires `UpcomingShift` and calls
`RecordAdvanceNotificationSent` exactly when delivery succeeds; on delivery
failure that step leaves the state unchanged, so after the full cycle the
dedup timestamp is updated iff delivery succeeded. -/
theorem advance_record_iff_delivered (adv : Int) (inp : PollInputs)
    (s : State) (shiftStart : Int)
    (hup : inp.upcomingShift = Except.ok (some shiftStart))
    (hshould : ShouldSendAdvanceNotification inp.now s shiftStart adv = true) :
    (advanceStep adv inp.now inp.upcomingShift inp.advanceDeliveryOk s
        = if inp.advanceDeliveryOk then
            (RecordAdvanceNotificationSent inp.now s,
              [NotificationEvent.EventUpcomingShift])
          else (s, [NotificationEvent.EventUpcomingShift])) ∧
    ∀ b : Bool, inp.isOnCall = Except.ok b →
      (pollCycle adv inp s).1.LastAdvanceNotificationSent
        = if inp.advanceDeliveryOk then some inp.now
          else s.LastAdvanceNotificationSent := by
  have hpos : 0 < adv := shouldSend_advance_pos inp.now s shiftStart adv hshould
  have hstep : advanceStep adv inp.now inp.upcomingShift inp.advanceDeliveryOk s
      = if inp.advanceDeliveryOk then
          (RecordAdvanceNotificationSent inp.now s,
            [NotificationEvent.EventUpcomingShift])
        else (s, [NotificationEvent.EventUpcomingShift]) := by
    simp [advanceStep, hup, hpos, hshould]
  refine ⟨hstep, ?_⟩
  intro b hok
  simp only [pollCycle, hok, hstep]
  cases hd : inp.advanceDeliveryOk <;> simp [RecordAdvanceNotificationSent]

/-- Claim C4 witness: a concrete in-window cycle whose delivery succeeds,
so the dedup marker is set to the tick's clock reading. -/
theorem advance_record_iff_delivered_witness :
    (pollCycle hour
        ⟨Except.ok true, Except.ok (some 1800000000000), true, true, 0⟩
        ⟨false, none⟩).1.LastAdvanceNotificationSent = some 0 := by
  have h := (advance_record_iff_delivered hour
    ⟨Except.ok true, Except.ok (some 1800000000000), true, true, 0⟩
    ⟨false, none⟩ 1800000000000 rfl (by decide)).2 true rfl
  simpa using h

/-- Claim C8: across the saves of successive poll cycles, the dedup
timestamp `LastAdvanceNotificationSent` is, when present, monotonically
non-decreasing: each cycle either leaves it unchanged or sets it to that
cycle's clock reading, and along any run whose clock readings move forward
from the current value, the stored timestamp never decreases. -/
theorem lastAdvance_monotone :
    (∀ (adv : Int) (inp : PollInputs) (s : State),
      (pollCycle adv inp s).1.LastAdvanceNotificationSent
          = s.LastAdvanceNotificationSent ∨
        (pollCycle adv inp s).1.LastAdvanceNotificationSent = some inp.now) ∧
    ∀ (adv : Int) (inps : List PollInputs) (s : State) (t0 : Int),
      s.LastAdvanceNotificationSent = some t0 → nowsFrom t0 inps →
      ∃ t1, (runCycles adv s inps).LastAdvanceNotificationSent = some t1 ∧
        t0 ≤ t1 := by
  refine ⟨pollCycle_last_cases, ?_⟩
  intro adv inps
  induction inps with
  | nil => exact fun s t0 h _ => ⟨t0, h, le_refl t0⟩
  | cons inp rest ih =>
    intro s t0 h hn
    rcases pollCycle_last_cases adv inp s with hc | hc
    · obtain ⟨t1, ht1, hle⟩ := ih (pollCycle adv inp s).1 t0 (hc.trans h)
        (nowsFrom_mono t0 inp.now rest hn.1 hn.2)
      exact ⟨t1, ht1, hle⟩
    · obtain ⟨t1, ht1, hle⟩ := ih (pollCycle adv inp s).1 inp.now hc hn.2
      exact ⟨t1, ht1, le_trans hn.1 hle⟩

/-- Claim C8 witness: one cycle starting from a state stamped at time 0,
whose clock reads time 1. -/
theorem lastAdvance_monotone_witness :
    ∃ t1, (runCycles 0 ⟨false, some 0⟩
        [⟨Except.ok true, Except.ok none, true, true, 1⟩]).LastAdvanceNotificationSent
      = some t1 ∧ (0 : Int) ≤ t1 :=
  lastAdvance_monotone.2 0 [⟨Except.ok true, Except.ok none, true, true, 1⟩]
    ⟨false, some 0⟩ 0 rfl ⟨by decide, trivial⟩

/-- Claim C7: the engine's symmetric detector `HasTransitionToOffCall`
(modelled from the spec, its body being absent from the provided sources)
is true iff the previous state was on-call and the current observation is
off-call; it is the trigger for `ShiftEnded` when that feature is enabled. -/
theorem hasTransitionToOffCall_spec (prev : State) (cur : Bool) :
    HasTransitionToOffCall prev cur = true ↔
      prev.WasOnCall = true ∧ cur = false := by
  cases h : prev.WasOnCall <;> cases cur <;> simp [HasTransitionToOffCall, h]
